import Mathlib

/-!
Verification development for the nuoa-swe utility scripts.

Shallow embedding of the four Python scripts:
* `increase_version_of_table.py` (bulk conditional table updater),
* `get_logs.py` (CloudWatch log fetcher),
* `get_lambdas.py` (filtered Lambda function lister),
* `detect_aws_resources.py` (resource detector).

Remote services (DynamoDB scan pages, CloudWatch log pages, Lambda listing
pages, per-service responses) are modelled as explicit inputs; the scripts
become pure Lean functions of those inputs.  Strings are `List Char`;
machine integers are `Int`/`Nat` (the scripts do unbounded Python
arithmetic, so no modular reduction is needed).
-/

/- ------------------------------------------------------------------ -/
/- Part 1: increase_version_of_table.py                                -/
/- ------------------------------------------------------------------ -/

/-- A DynamoDB attribute value, as far as `scan_and_update_table` inspects
one: the `versionId` attribute is either already a number or a string.
Python `int(...)` succeeds on a number and on a decimal string, and raises
`ValueError` otherwise. -/
inductive AttrVal where
  | int (n : Int)
  | str (s : List Char)
deriving DecidableEq

/-- The Python exceptions the embedded scripts can raise. -/
inductive PyErr where
  | keyError
  | valueError
  | indexError
deriving DecidableEq

/-- Characters removed by the whitespace strip of Python `int(str)`
(ASCII whitespace; the scripts only meet ASCII input). -/
def isPySpace (c : Char) : Bool :=
  c == ' ' || c == '\t' || c == '\n' || c == '\r'

/-- Base-10 value of a digit string. -/
def digitsVal (ds : List Char) : Nat :=
  ds.foldl (fun acc c => 10 * acc + (c.toNat - '0'.toNat)) 0

/-- Model of Python `int(s)` on a string: strip surrounding whitespace, an
optional single sign, then a nonempty run of decimal digits.  (Digit
grouping underscores are not modelled; no script produces them.)  Returns
`none` where Python raises `ValueError`. -/
def pyParseInt (s : List Char) : Option Int :=
  let t := ((s.dropWhile isPySpace).reverse.dropWhile isPySpace).reverse
  match t with
  | [] => none
  | c :: rest =>
    if c = '+' then
      if rest ≠ [] ∧ rest.all Char.isDigit then some (digitsVal rest) else none
    else if c = '-' then
      if rest ≠ [] ∧ rest.all Char.isDigit then some (-(digitsVal rest : Int)) else none
    else
      if (c :: rest).all Char.isDigit then some (digitsVal (c :: rest)) else none

/-- Model of Python `int(x)` on a `versionId` attribute value. -/
def pyInt : AttrVal → Except PyErr Int
  | .int n => .ok n
  | .str s =>
    match pyParseInt s with
    | some n => .ok n
    | none => .error .valueError

/-- One scanned table row, as far as `scan_and_update_table` inspects it:
`rowId` stands for the identity of the full attribute map; `versionId` is
the one attribute the script reads (absent when the row lacks it). -/
structure Row where
  rowId : Nat
  versionId : Option AttrVal
deriving DecidableEq

/-- The combined effect of `item['versionId']` followed by `int(...)`:
`KeyError` when the attribute is absent, `ValueError` when it is not
int-convertible, otherwise the integer version. -/
def versionOf (r : Row) : Except PyErr Int :=
  match r.versionId with
  | none => .error .keyError
  | some v => pyInt v

/-- One `put_item` request issued by the live path.  The written item
carries `versionId = newVersion`; the request condition is
`versionId < :value` with `:value = condValue` taken from the
already-updated item. -/
structure PutReq where
  rowId : Nat
  origVersion : Int
  newVersion : Int
  condValue : Int
deriving DecidableEq

/-- How a run of `scan_and_update_table` ends: the final `print` of the
count, or a Python exception escaping the function. -/
inductive Outcome where
  | finished (count : Nat)
  | aborted (e : PyErr)
deriving DecidableEq

/-- Loop state of `scan_and_update_table`: the running `count`, the
`put_item` requests issued so far, and the rowIds whose loop body has
started (used to state which rows were processed). -/
structure ScanState where
  count : Nat
  puts : List PutReq
  processed : List Nat
deriving DecidableEq

/-- Result of a whole run. -/
structure ScanResult where
  outcome : Outcome
  puts : List PutReq
  processed : List Nat
deriving DecidableEq

/-- Body of the inner `for item in response['Items']` loop for one row.
`condPasses` is the environment: whether the conditional check of the
`put_item` for this row passes (it depends on the stored row at write
time, i.e. on concurrent writers).  An uncaught exception carries the
state at the time it is raised. -/
def processRow (dry : Bool) (condPasses : Nat → Bool) (s : ScanState) (r : Row) :
    Except (PyErr × ScanState) ScanState :=
  let s0 : ScanState := { s with processed := s.processed ++ [r.rowId] }
  match versionOf r with
  | .error e => .error (e, s0)
  | .ok n =>
    if dry then
      .ok { s0 with count := s0.count + 1 }
    else
      let req : PutReq := ⟨r.rowId, n, n + 1, n + 1⟩
      let s1 : ScanState := { s0 with puts := s0.puts ++ [req] }
      if condPasses r.rowId then .ok { s1 with count := s1.count + 1 } else .ok s1

/-- The inner `for` loop over one scan page. -/
def processPage (dry : Bool) (condPasses : Nat → Bool) :
    List Row → ScanState → Except (PyErr × ScanState) ScanState
  | [], s => .ok s
  | r :: rs, s =>
    match processRow dry condPasses s r with
    | .error es => .error es
    | .ok s2 => processPage dry condPasses rs s2

/-- The outer `while` loop: one entry of the list is one scan response
(`LastEvaluatedKey` is present exactly when further pages follow).  In
dry-run mode the loop breaks unconditionally after the first page. -/
def processPages (dry : Bool) (condPasses : Nat → Bool) :
    List (List Row) → ScanState → Except (PyErr × ScanState) ScanState
  | [], s => .ok s
  | p :: ps, s =>
    match processPage dry condPasses p s with
    | .error es => .error es
    | .ok s2 => if dry then .ok s2 else processPages dry condPasses ps s2

/-- `scan_and_update_table(table_name, aws_profile, dry_run)`, with the
table contents given as the list of scan pages and the conditional-check
outcomes given by `condPasses`. -/
def scan_and_update_table (pages : List (List Row)) (dry_run : Bool)
    (condPasses : Nat → Bool) : ScanResult :=
  match processPages dry_run condPasses pages ⟨0, [], []⟩ with
  | .ok s => ⟨.finished s.count, s.puts, s.processed⟩
  | .error (e, s) => ⟨.aborted e, s.puts, s.processed⟩

/-- The `__main__` block parses `--dry-run` with `action=store_true` and
`default=False`: the computed flag is true exactly when `--dry-run` was
passed, and this value (not the function default `dry_run=True`) is what
`scan_and_update_table` receives. -/
def main_dry_run (argv : List String) : Bool :=
  argv.contains "--dry-run"

example :
    scan_and_update_table [[⟨0, some (.int 3)⟩, ⟨1, some (.int 5)⟩]] true (fun _ => true)
      = ⟨.finished 2, [], [0, 1]⟩ := by decide

example :
    scan_and_update_table [[⟨0, some (.int 3)⟩]] false (fun _ => true)
      = ⟨.finished 1, [⟨0, 3, 4, 4⟩], [0]⟩ := by decide

example :
    scan_and_update_table [[⟨0, some (.int 1)⟩], [⟨1, some (.int 1)⟩]] true (fun _ => true)
      = ⟨.finished 1, [], [0]⟩ := by decide

example :
    scan_and_update_table [[⟨0, none⟩, ⟨1, some (.int 1)⟩]] false (fun _ => true)
      = ⟨.aborted .keyError, [], [0]⟩ := by decide

/-- Boolean test that reading and converting the version of a row succeeds
(the row has a `versionId` attribute and it is int-convertible). -/
def isOkV (r : Row) : Bool :=
  match versionOf r with
  | .ok _ => true
  | .error _ => false

/-- The loop state carried by a step result, whether the step returned
normally or raised. -/
def stateOf : Except (PyErr × ScanState) ScanState → ScanState
  | .ok s => s
  | .error (_, s) => s

lemma versionOf_ok_of_isOkV {r : Row} (h : isOkV r = true) :
    ∃ n, versionOf r = .ok n := by
  cases hv : versionOf r with
  | ok n => exact ⟨n, rfl⟩
  | error e => rw [isOkV, hv] at h; simp at h

lemma processRow_ok_processed (dry : Bool) (cond : Nat → Bool) (s : ScanState)
    (r : Row) (n : Int) (hn : versionOf r = .ok n) :
    ∃ s1, processRow dry cond s r = .ok s1
      ∧ s1.processed = s.processed ++ [r.rowId] := by
  cases dry with
  | true =>
    exact ⟨⟨s.count + 1, s.puts, s.processed ++ [r.rowId]⟩,
      by simp [processRow, hn], by simp⟩
  | false =>
    by_cases hc : cond r.rowId
    · exact ⟨⟨s.count + 1, s.puts ++ [⟨r.rowId, n, n + 1, n + 1⟩], s.processed ++ [r.rowId]⟩,
        by simp [processRow, hn, hc], by simp⟩
    · exact ⟨⟨s.count, s.puts ++ [⟨r.rowId, n, n + 1, n + 1⟩], s.processed ++ [r.rowId]⟩,
        by simp [processRow, hn, hc], by simp⟩

lemma processPage_ok (dry : Bool) (cond : Nat → Bool) :
    ∀ (rows : List Row) (s : ScanState), (∀ r ∈ rows, isOkV r = true) →
      ∃ s2, processPage dry cond rows s = .ok s2
        ∧ s2.count = s.count +
            (if dry then rows.length else (rows.filter (fun r => cond r.rowId)).length)
        ∧ s2.processed = s.processed ++ rows.map Row.rowId := by
  intro rows
  induction rows with
  | nil => intro s _; exact ⟨s, rfl, by simp, by simp⟩
  | cons r rs ih =>
    intro s h
    obtain ⟨n, hn⟩ := versionOf_ok_of_isOkV (h r (by simp))
    have hrs : ∀ x ∈ rs, isOkV x = true := fun x hx => h x (by simp [hx])
    cases dry with
    | true =>
      obtain ⟨s2, h1, h2, h3⟩ := ih ⟨s.count + 1, s.puts, s.processed ++ [r.rowId]⟩ hrs
      refine ⟨s2, ?_, ?_, ?_⟩
      · simpa [processPage, processRow, hn] using h1
      · simp only [if_true] at h2 ⊢; simp [h2]; omega
      · simpa [List.append_assoc] using h3
    | false =>
      by_cases hc : cond r.rowId
      · obtain ⟨s2, h1, h2, h3⟩ :=
          ih ⟨s.count + 1, s.puts ++ [⟨r.rowId, n, n + 1, n + 1⟩], s.processed ++ [r.rowId]⟩ hrs
        refine ⟨s2, ?_, ?_, ?_⟩
        · simpa [processPage, processRow, hn, hc] using h1
        · simp only [if_false] at h2 ⊢
          simp [h2, List.filter_cons, hc]; omega
        · simpa [List.append_assoc] using h3
      · obtain ⟨s2, h1, h2, h3⟩ :=
          ih ⟨s.count, s.puts ++ [⟨r.rowId, n, n + 1, n + 1⟩], s.processed ++ [r.rowId]⟩ hrs
        refine ⟨s2, ?_, ?_, ?_⟩
        · simpa [processPage, processRow, hn, hc] using h1
        · simp only [if_false] at h2 ⊢
          simp [h2, List.filter_cons, hc]
        · simpa [List.append_assoc] using h3

lemma processPages_ok_live (cond : Nat → Bool) :
    ∀ (pages : List (List Row)) (s : ScanState),
      (∀ p ∈ pages, ∀ r ∈ p, isOkV r = true) →
      ∃ s2, processPages false cond pages s = .ok s2
        ∧ s2.count = s.count + ((pages.flatten.filter (fun r => cond r.rowId)).length)
        ∧ s2.processed = s.processed ++ pages.flatten.map Row.rowId := by
  intro pages
  induction pages with
  | nil => intro s _; exact ⟨s, rfl, by simp, by simp⟩
  | cons p ps ih =>
    intro s h
    obtain ⟨s1, h1, hc1, hp1⟩ := processPage_ok false cond p s (h p (by simp))
    obtain ⟨s2, h2, hc2, hp2⟩ := ih s1 (fun x hx => h x (by simp [hx]))
    refine ⟨s2, ?_, ?_, ?_⟩
    · unfold processPages; rw [h1]; simpa using h2
    · rw [hc2, hc1]; simp [List.filter_append]; omega
    · rw [hp2, hp1]; simp

lemma processRow_puts_shape (dry : Bool) (cond : Nat → Bool) (s : ScanState)
    (r : Row) (q : PutReq) (hq : q ∈ (stateOf (processRow dry cond s r)).puts) :
    q ∈ s.puts ∨ ∃ rid n, q = ⟨rid, n, n + 1, n + 1⟩ := by
  cases hv : versionOf r with
  | error e =>
    simp [processRow, stateOf, hv] at hq
    exact .inl hq
  | ok n =>
    cases dry with
    | true =>
      simp [processRow, stateOf, hv] at hq
      exact .inl hq
    | false =>
      by_cases hc : cond r.rowId
      · simp [processRow, stateOf, hv, hc] at hq
        rcases hq with hq | hq
        · exact .inl hq
        · exact .inr ⟨r.rowId, n, hq⟩
      · simp [processRow, stateOf, hv, hc] at hq
        rcases hq with hq | hq
        · exact .inl hq
        · exact .inr ⟨r.rowId, n, hq⟩

lemma processPage_puts_shape (dry : Bool) (cond : Nat → Bool) :
    ∀ (rows : List Row) (s : ScanState) (q : PutReq),
      q ∈ (stateOf (processPage dry cond rows s)).puts →
      q ∈ s.puts ∨ ∃ rid n, q = ⟨rid, n, n + 1, n + 1⟩ := by
  intro rows
  induction rows with
  | nil => intro s q hq; exact .inl (by simpa [processPage, stateOf] using hq)
  | cons r rs ih =>
    intro s q hq
    unfold processPage at hq
    cases hpr : processRow dry cond s r with
    | error es =>
      rw [hpr] at hq
      exact processRow_puts_shape dry cond s r q (by rw [hpr]; exact hq)
    | ok s2 =>
      rw [hpr] at hq
      rcases ih s2 q hq with h | h
      · exact processRow_puts_shape dry cond s r q (by rw [hpr]; exact h)
      · exact .inr h

lemma processPages_puts_shape (dry : Bool) (cond : Nat → Bool) :
    ∀ (pages : List (List Row)) (s : ScanState) (q : PutReq),
      q ∈ (stateOf (processPages dry cond pages s)).puts →
      q ∈ s.puts ∨ ∃ rid n, q = ⟨rid, n, n + 1, n + 1⟩ := by
  intro pages
  induction pages with
  | nil => intro s q hq; exact .inl (by simpa [processPages, stateOf] using hq)
  | cons p ps ih =>
    intro s q hq
    unfold processPages at hq
    cases hpp : processPage dry cond p s with
    | error es =>
      rw [hpp] at hq
      exact processPage_puts_shape dry cond p s q (by rw [hpp]; exact hq)
    | ok s2 =>
      rw [hpp] at hq
      cases dry with
      | true =>
        simp only [if_true] at hq
        exact processPage_puts_shape true cond p s q (by rw [hpp]; exact hq)
      | false =>
        simp only [if_false] at hq
        rcases ih s2 q hq with h | h
        · exact processPage_puts_shape false cond p s q (by rw [hpp]; exact h)
        · exact .inr h

lemma processPage_abort (dry : Bool) (cond : Nat → Bool) :
    ∀ (pre : List Row) (post : List Row) (bad : Row) (s : ScanState) (e : PyErr),
      (∀ r ∈ pre, isOkV r = true) → versionOf bad = .error e →
      ∃ s2, processPage dry cond (pre ++ bad :: post) s = .error (e, s2)
        ∧ s2.processed = s.processed ++ (pre.map Row.rowId ++ [bad.rowId]) := by
  intro pre
  induction pre with
  | nil =>
    intro post bad s e _ hbad
    refine ⟨⟨s.count, s.puts, s.processed ++ [bad.rowId]⟩, ?_, by simp⟩
    simp [processPage, processRow, hbad]
  | cons r pre2 ih =>
    intro post bad s e hpre hbad
    obtain ⟨n, hn⟩ := versionOf_ok_of_isOkV (hpre r (by simp))
    obtain ⟨s1, h1, hp1⟩ := processRow_ok_processed dry cond s r n hn
    obtain ⟨s2, h2, hp2⟩ := ih post bad s1 e (fun x hx => hpre x (by simp [hx])) hbad
    refine ⟨s2, ?_, ?_⟩
    · show processPage dry cond (r :: (pre2 ++ bad :: post)) s = .error (e, s2)
      unfold processPage; rw [h1]; exact h2
    · rw [hp2, hp1]; simp

lemma processPages_abort_head (dry : Bool) (cond : Nat → Bool) (p : List Row)
    (ps : List (List Row)) (s : ScanState) (e : PyErr) (s2 : ScanState)
    (h : processPage dry cond p s = .error (e, s2)) :
    processPages dry cond (p :: ps) s = .error (e, s2) := by
  unfold processPages; rw [h]

/-- Claim C1: for a table whose scan spans more than one page, a dry run
reports a count equal to the number of rows in the first page only: the
loop breaks unconditionally after the first page when dry-run is active,
so the reported count is the first-page row count regardless of the
remaining pages. -/
theorem dry_run_counts_first_page_only (p1 : List Row) (rest : List (List Row))
    (condPasses : Nat → Bool) (h1 : ∀ r ∈ p1, isOkV r = true) :
    (scan_and_update_table (p1 :: rest) true condPasses).outcome = .finished p1.length := by
  obtain ⟨s2, hok, hc, _⟩ := processPage_ok true condPasses p1 ⟨0, [], []⟩ h1
  unfold scan_and_update_table processPages
  rw [hok]
  simp at hc
  simp [hc]

/-- Witness for C1: a table of 2 pages with 10 rows each yields a dry-run
count of 10, not the full-table count 20. -/
theorem dry_run_counts_first_page_only_witness :
    (scan_and_update_table
        [(List.range 10).map (fun i => ⟨i, some (.int 1)⟩),
         (List.range 10).map (fun i => ⟨10 + i, some (.int 1)⟩)]
        true (fun _ => true)).outcome = .finished 10
    ∧ (10 : Nat) ≠ 20 := by
  constructor
  · exact (dry_run_counts_first_page_only
      ((List.range 10).map (fun i => ⟨i, some (.int 1)⟩))
      [(List.range 10).map (fun i => ⟨10 + i, some (.int 1)⟩)]
      (fun _ => true) (by decide)).trans (by decide)
  · decide

/-- Claim C2: in live mode every issued `put_item` writes version
`orig + 1` and its ConditionExpression value `:value` is that same
already-incremented value, not the originally-read version. -/
theorem live_put_condition_uses_incremented_value (pages : List (List Row))
    (condPasses : Nat → Bool) (q : PutReq)
    (hq : q ∈ (scan_and_update_table pages false condPasses).puts) :
    q.newVersion = q.origVersion + 1
    ∧ q.condValue = q.newVersion
    ∧ q.condValue ≠ q.origVersion := by
  have hmem : q ∈ (stateOf (processPages false condPasses pages ⟨0, [], []⟩)).puts := by
    unfold scan_and_update_table at hq
    cases h : processPages false condPasses pages ⟨0, [], []⟩ with
    | ok s => rw [h] at hq; simp at hq; simpa [stateOf] using hq
    | error es =>
      obtain ⟨e, s⟩ := es
      rw [h] at hq; simp at hq; simpa [stateOf] using hq
  rcases processPages_puts_shape false condPasses pages ⟨0, [], []⟩ q hmem with h | ⟨rid, n, hqe⟩
  · simp at h
  · subst hqe
    refine ⟨rfl, rfl, ?_⟩
    simp

/-- Witness for C2: a one-row table with stored version 4 issues a put of
version 5 whose condition value is 5 = 4 + 1. -/
theorem live_put_condition_uses_incremented_value_witness :
    (⟨0, 4, 5, 5⟩ : PutReq)
        ∈ (scan_and_update_table [[⟨0, some (.int 4)⟩]] false (fun _ => true)).puts
    ∧ ((5 : Int) = 4 + 1 ∧ (5 : Int) = 5 ∧ (5 : Int) ≠ 4) := by
  refine ⟨by decide, ?_⟩
  have h := live_put_condition_uses_incremented_value [[⟨0, some (.int 4)⟩]]
    (fun _ => true) ⟨0, 4, 5, 5⟩ (by decide)
  exact h

/-- Claim C7: in live mode a conditional-check failure on one row is
caught: the run finishes, the final count is the number of rows whose
conditional write passed, and every row of every page is processed. -/
theorem cond_failure_skips_row_and_continues (pages : List (List Row))
    (condPasses : Nat → Bool)
    (hall : ∀ p ∈ pages, ∀ r ∈ p, isOkV r = true) :
    (scan_and_update_table pages false condPasses).outcome
        = .finished ((pages.flatten.filter (fun r => condPasses r.rowId)).length)
    ∧ (scan_and_update_table pages false condPasses).processed
        = pages.flatten.map Row.rowId := by
  obtain ⟨s2, hok, hc, hp⟩ := processPages_ok_live condPasses pages ⟨0, [], []⟩ hall
  unfold scan_and_update_table
  rw [hok]
  simp at hc hp
  simp [hc, hp]

/-- Witness for C7: rows A, B, C where only the write for B fails the
condition: the run reaches C, and the final count is 2. -/
theorem cond_failure_skips_row_and_continues_witness :
    (scan_and_update_table [[⟨0, some (.int 1)⟩, ⟨1, some (.int 1)⟩, ⟨2, some (.int 1)⟩]]
        false (fun i => i != 1)).outcome = .finished 2
    ∧ (scan_and_update_table [[⟨0, some (.int 1)⟩, ⟨1, some (.int 1)⟩, ⟨2, some (.int 1)⟩]]
        false (fun i => i != 1)).processed = [0, 1, 2] := by
  have h := cond_failure_skips_row_and_continues
    [[⟨0, some (.int 1)⟩, ⟨1, some (.int 1)⟩, ⟨2, some (.int 1)⟩]]
    (fun i => i != 1) (by decide)
  exact ⟨h.1.trans (by decide), h.2.trans (by decide)⟩

/-- Claim C10: only the conditional put is guarded by an exception
handler; a row whose `versionId` is absent or not int-convertible makes
the increment raise, the exception escapes `scan_and_update_table`
(in dry-run and in live mode alike), and no subsequent row is processed. -/
theorem increment_error_aborts_scan (dry : Bool) (condPasses : Nat → Bool)
    (pre post : List Row) (bad : Row) (rest : List (List Row)) (e : PyErr)
    (hpre : ∀ r ∈ pre, isOkV r = true) (hbad : versionOf bad = .error e) :
    (scan_and_update_table ((pre ++ bad :: post) :: rest) dry condPasses).outcome
        = .aborted e
    ∧ (scan_and_update_table ((pre ++ bad :: post) :: rest) dry condPasses).processed
        = pre.map Row.rowId ++ [bad.rowId] := by
  obtain ⟨s2, hpg, hproc⟩ :=
    processPage_abort dry condPasses pre post bad ⟨0, [], []⟩ e hpre hbad
  have h2 := processPages_abort_head dry condPasses _ rest _ e s2 hpg
  unfold scan_and_update_table
  rw [h2]
  simp at hproc
  simp [hproc]

/-- Witness for C10: a valid row, then a row with no `versionId`, then a
valid row, in live mode: the scan aborts with a KeyError after processing
only the first two rows; the trailing row is never reached. -/
theorem increment_error_aborts_scan_witness :
    (scan_and_update_table [[⟨0, some (.int 1)⟩, ⟨1, none⟩, ⟨2, some (.int 1)⟩]]
        false (fun _ => true)).outcome = .aborted .keyError
    ∧ (scan_and_update_table [[⟨0, some (.int 1)⟩, ⟨1, none⟩, ⟨2, some (.int 1)⟩]]
        false (fun _ => true)).processed = [0, 1] := by
  have h := increment_error_aborts_scan false (fun _ => true)
    [⟨0, some (.int 1)⟩] [⟨2, some (.int 1)⟩] ⟨1, none⟩ [] .keyError
    (by decide) rfl
  exact ⟨h.1, h.2.trans (by decide)⟩

/-- Counterexample to claim C4: invoked without `--dry-run` on the command
line, the parsed flag is `false`, and the run is a live run (it issues a
put request and differs from the dry-run result), not a dry run. -/
theorem cli_default_dry_run_counterexample :
    main_dry_run ["--table-name", "T"] = false
    ∧ (scan_and_update_table [[⟨0, some (.int 1)⟩], [⟨1, some (.int 1)⟩]]
          (main_dry_run ["--table-name", "T"]) (fun _ => true)).puts ≠ []
    ∧ scan_and_update_table [[⟨0, some (.int 1)⟩], [⟨1, some (.int 1)⟩]]
          (main_dry_run ["--table-name", "T"]) (fun _ => true)
        ≠ scan_and_update_table [[⟨0, some (.int 1)⟩], [⟨1, some (.int 1)⟩]]
          true (fun _ => true) := by
  refine ⟨by decide, by decide, by decide⟩

/-- Claim C4 as amended: dry run is opt-in, not the default.  Without
`--dry-run` in the argument vector the parsed flag is false and the
updater behaves exactly as a live run; the flag is true only when
`--dry-run` is passed. -/
theorem cli_dry_run_opt_in (argv : List String) (h : "--dry-run" ∉ argv)
    (pages : List (List Row)) (condPasses : Nat → Bool) :
    main_dry_run argv = false
    ∧ scan_and_update_table pages (main_dry_run argv) condPasses
        = scan_and_update_table pages false condPasses := by
  have hm : main_dry_run argv = false := by
    unfold main_dry_run
    simpa using h
  exact ⟨hm, by rw [hm]⟩

/-- Witness for the amended C4. -/
theorem cli_dry_run_opt_in_witness :
    main_dry_run ["--table-name", "T"] = false
    ∧ scan_and_update_table [[⟨0, some (.int 1)⟩]] (main_dry_run ["--table-name", "T"])
          (fun _ => true)
        = scan_and_update_table [[⟨0, some (.int 1)⟩]] false (fun _ => true) :=
  cli_dry_run_opt_in ["--table-name", "T"] (by decide) [[⟨0, some (.int 1)⟩]] (fun _ => true)

/- ------------------------------------------------------------------ -/
/- Part 2: get_logs.py                                                 -/
/- ------------------------------------------------------------------ -/

/-- One CloudWatch log event: a (timestamp, message) pair. -/
structure LogEvent where
  timestamp : Int
  message : List Char
deriving DecidableEq

/-- `parse_time_range(time_str)`: take the last character, lowercase it,
convert the rest with `int(...)`, and dispatch on the unit.  A
`timedelta` is modelled by its length in seconds
(`timedelta(minutes=v)` is `v * 60` and so on).  On an empty string the
subscript `time_str[-1]` raises `IndexError`; a failing `int(...)` or an
unknown unit raises `ValueError`. -/
def parse_time_range (time_str : List Char) : Except PyErr Int :=
  match time_str.getLast? with
  | none => .error .indexError
  | some last =>
    let unit := last.toLower
    match pyParseInt time_str.dropLast with
    | none => .error .valueError
    | some value =>
      if unit = 'm' then .ok (value * 60)
      else if unit = 'h' then .ok (value * 3600)
      else if unit = 'd' then .ok (value * 86400)
      else .error .valueError

/-- The pagination loop of `get_logs`: each entry of `pages` is the event
list of one `filter_log_events` response, whose `nextToken` is present
exactly when further entries follow.  Returns the accumulated events and
the number of remote calls made.  The loop breaks when no token remains
or at least 100 events have accumulated. -/
def fetchEvents : List (List LogEvent) → List LogEvent → Nat → List LogEvent × Nat
  | [], acc, calls => (acc, calls + 1)
  | p :: rest, acc, calls =>
    let acc2 := acc ++ p
    if rest = [] ∨ 100 ≤ acc2.length then (acc2, calls + 1)
    else fetchEvents rest acc2 (calls + 1)

/-- Observable result of one `get_logs` run: the returned event list, the
events actually printed (`events[:100]`), the number of
`filter_log_events` network calls, and the millisecond query window.
A parse failure is caught inside `get_logs`, which then returns the empty
list having made no network call. -/
structure GetLogsResult where
  events : List LogEvent
  printedEvents : List LogEvent
  calls : Nat
  startMs : Option Int
  endMs : Option Int
deriving DecidableEq

/-- `get_logs(profile_name, function_name, time_range)` with the current
time given as `now_ms` (epoch milliseconds) and the remote log store
given as `pages`.  The window is `[now - duration*1000, now]`. -/
def get_logs (now_ms : Int) (time_range : List Char)
    (pages : List (List LogEvent)) : GetLogsResult :=
  match parse_time_range time_range with
  | .error _ => ⟨[], [], 0, none, none⟩
  | .ok dur =>
    let fr := fetchEvents pages [] 0
    ⟨fr.1, fr.1.take 100, fr.2, some (now_ms - dur * 1000), some now_ms⟩

example : parse_time_range ['5', 'm'] = .ok 300 := rfl
example : parse_time_range ['2', 'h'] = .ok 7200 := rfl
example : parse_time_range ['1', 'd'] = .ok 86400 := rfl
example : parse_time_range ['5', 'x'] = .error .valueError := rfl
example : parse_time_range [] = .error .indexError := rfl
example : (get_logs 0 ['5', 'x'] [[⟨0, []⟩]]).calls = 0 := rfl

lemma fetchEvents_bound :
    ∀ (pages : List (List LogEvent)) (acc : List LogEvent) (calls : Nat),
      (∀ p ∈ pages, p.length ≤ 100) → acc.length ≤ 99 →
      ((fetchEvents pages acc calls).1).length ≤ 199 := by
  intro pages
  induction pages with
  | nil => intro acc calls _ ha; simp [fetchEvents]; omega
  | cons p rest ih =>
    intro acc calls hp ha
    have hplen : p.length ≤ 100 := hp p (by simp)
    have hred : fetchEvents (p :: rest) acc calls
        = if rest = [] ∨ 100 ≤ (acc ++ p).length then (acc ++ p, calls + 1)
          else fetchEvents rest (acc ++ p) (calls + 1) := rfl
    by_cases hstop : rest = [] ∨ 100 ≤ (acc ++ p).length
    · rw [hred, if_pos hstop]; simp; omega
    · rw [hred, if_neg hstop]
      have hlt : (acc ++ p).length ≤ 99 := by
        rcases not_or.mp hstop with ⟨_, h2⟩
        simp at h2
        simp
        omega
      exact ih (acc ++ p) (calls + 1) (fun x hx => hp x (by simp [hx])) hlt

/-- Counterexample to claim C3: a page sequence the store may yield (each
page within the requested limit of 100) for which `get_logs` returns more
than 100 events.  Two pages of 60 events each: after the second page the
accumulated list has 120 events, the loop breaks, and the whole list is
returned. -/
theorem log_cap_counterexample :
    (∀ p ∈ [List.replicate 60 (⟨0, []⟩ : LogEvent),
            List.replicate 60 (⟨0, []⟩ : LogEvent)], p.length ≤ 100)
    ∧ (get_logs 0 ['5', 'm']
        [List.replicate 60 (⟨0, []⟩ : LogEvent),
         List.replicate 60 (⟨0, []⟩ : LogEvent)]).events.length = 120
    ∧ ¬ (get_logs 0 ['5', 'm']
        [List.replicate 60 (⟨0, []⟩ : LogEvent),
         List.replicate 60 (⟨0, []⟩ : LogEvent)]).events.length ≤ 100 := by
  refine ⟨by decide, by decide, by decide⟩

/-- Claim C3 as amended: the fetcher stops requesting further pages once
at least 100 events have accumulated, so with pages of at most 100 events
each the returned list never exceeds 199 events (the printed output is
additionally truncated to 100); and when the 250 available events arrive
as full pages of 100, 100 and 50, the returned list has exactly 100
events. -/
theorem log_fetch_cap (now : Int) (tr : List Char) (pages : List (List LogEvent))
    (hp : ∀ p ∈ pages, p.length ≤ 100) :
    (get_logs now tr pages).events.length ≤ 199
    ∧ (get_logs now tr pages).printedEvents.length ≤ 100
    ∧ (get_logs 0 ['5', 'm']
        [List.replicate 100 (⟨0, []⟩ : LogEvent),
         List.replicate 100 (⟨0, []⟩ : LogEvent),
         List.replicate 50 (⟨0, []⟩ : LogEvent)]).events.length = 100 := by
  refine ⟨?_, ?_, by decide⟩
  · cases hpr : parse_time_range tr with
    | error e => simp [get_logs, hpr]
    | ok dur =>
      simp only [get_logs, hpr]
      exact fetchEvents_bound pages [] 0 hp (by simp)
  · cases hpr : parse_time_range tr with
    | error e => simp [get_logs, hpr]
    | ok dur =>
      simp only [get_logs, hpr]
      exact List.length_take_le 100 _

/-- Witness for the amended C3. -/
theorem log_fetch_cap_witness :
    (get_logs 0 ['5', 'm'] [[(⟨0, []⟩ : LogEvent)]]).events.length ≤ 199
    ∧ (get_logs 0 ['5', 'm'] [[(⟨0, []⟩ : LogEvent)]]).printedEvents.length ≤ 100
    ∧ (get_logs 0 ['5', 'm']
        [List.replicate 100 (⟨0, []⟩ : LogEvent),
         List.replicate 100 (⟨0, []⟩ : LogEvent),
         List.replicate 50 (⟨0, []⟩ : LogEvent)]).events.length = 100 :=
  log_fetch_cap 0 ['5', 'm'] [[⟨0, []⟩]] (by decide)

lemma isPySpace_eq_false_of_isDigit {c : Char} (h : c.isDigit = true) :
    isPySpace c = false := by
  cases hs : isPySpace c with
  | false => rfl
  | true =>
    exfalso
    unfold isPySpace at hs
    simp only [Bool.or_eq_true, beq_iff_eq] at hs
    rcases hs with ((rfl | rfl) | rfl) | rfl <;> exact absurd h (by decide)

lemma strip_digits (c : Char) (rest : List Char)
    (hd : ∀ x ∈ c :: rest, x.isDigit = true) :
    (((c :: rest).dropWhile isPySpace).reverse.dropWhile isPySpace).reverse
      = c :: rest := by
  have h1 : (c :: rest).dropWhile isPySpace = c :: rest := by
    rw [List.dropWhile_cons]
    simp [isPySpace_eq_false_of_isDigit (hd c (by simp))]
  rw [h1]
  have h2 : (c :: rest).reverse.dropWhile isPySpace = (c :: rest).reverse := by
    cases hrev : (c :: rest).reverse with
    | nil => exact absurd hrev (by simp)
    | cons d ds =>
      rw [List.dropWhile_cons]
      have hdmem : d ∈ c :: rest := by
        have hm : d ∈ (c :: rest).reverse := by rw [hrev]; simp
        rw [List.mem_reverse] at hm
        exact hm
      simp [isPySpace_eq_false_of_isDigit (hd d hdmem)]
  rw [h2, List.reverse_reverse]

lemma pyParseInt_digits (c : Char) (rest : List Char)
    (hd : ∀ x ∈ c :: rest, x.isDigit = true) :
    pyParseInt (c :: rest) = some (digitsVal (c :: rest)) := by
  have hc := hd c (by simp)
  have hplus : ¬ c = '+' := by
    intro h; subst h; exact absurd hc (by decide)
  have hminus : ¬ c = '-' := by
    intro h; subst h; exact absurd hc (by decide)
  unfold pyParseInt
  rw [strip_digits c rest hd]
  simp only [if_neg hplus, if_neg hminus]
  have hall : (c :: rest).all Char.isDigit = true := by
    simpa [List.all_eq_true] using hd
  rw [if_pos hall]
  rfl

lemma parse_time_range_append_unit (ds : List Char) (u : Char) (hne : ds ≠ [])
    (hd : ∀ x ∈ ds, x.isDigit = true) :
    parse_time_range (ds ++ [u])
      = if u.toLower = 'm' then .ok ((digitsVal ds : Int) * 60)
        else if u.toLower = 'h' then .ok ((digitsVal ds : Int) * 3600)
        else if u.toLower = 'd' then .ok ((digitsVal ds : Int) * 86400)
        else .error .valueError := by
  obtain ⟨c, rest, rfl⟩ := List.exists_cons_of_ne_nil hne
  unfold parse_time_range
  rw [List.getLast?_concat, List.dropLast_concat, pyParseInt_digits c rest hd]
  rfl

/-- Counterexample to claim C5: the string `5H` has trailing character
`H`, which is not in `{m, h, d}`, yet the parser succeeds (the unit check
is applied to the lowercased character), returning 5 hours, and `get_logs`
then makes a network call. -/
theorem time_unit_uppercase_counterexample :
    'H' ∉ (['m', 'h', 'd'] : List Char)
    ∧ parse_time_range ['5', 'H'] = .ok 18000
    ∧ (get_logs 0 ['5', 'H'] [[⟨0, []⟩]]).calls ≠ 0 :=
  ⟨by decide, rfl, by decide⟩

/-- Claim C5 as amended: for every time-range string of the form
`<digits><unit>` with unit in `{m, h, d}` the parser returns exactly
`value` minutes, hours or days (as seconds), and the query window of
`get_logs` is `[now - value*unit, now]` in epoch milliseconds; for every
string whose trailing character does not lowercase to one of `{m, h, d}`
the parser raises a validation error and `get_logs` makes no network
call (uppercase units are accepted: the check is case-insensitive). -/
theorem time_range_parse_correct :
    (∀ (ds : List Char) (now : Int) (pages : List (List LogEvent)),
      ds ≠ [] → (∀ x ∈ ds, x.isDigit = true) →
      parse_time_range (ds ++ ['m']) = .ok ((digitsVal ds : Int) * 60)
      ∧ parse_time_range (ds ++ ['h']) = .ok ((digitsVal ds : Int) * 3600)
      ∧ parse_time_range (ds ++ ['d']) = .ok ((digitsVal ds : Int) * 86400)
      ∧ (get_logs now (ds ++ ['m']) pages).endMs = some now
      ∧ (get_logs now (ds ++ ['m']) pages).startMs
          = some (now - (digitsVal ds : Int) * 60 * 1000)
      ∧ (get_logs now (ds ++ ['h']) pages).startMs
          = some (now - (digitsVal ds : Int) * 3600 * 1000)
      ∧ (get_logs now (ds ++ ['d']) pages).startMs
          = some (now - (digitsVal ds : Int) * 86400 * 1000))
    ∧ (∀ (s : List Char) (c : Char) (now : Int) (pages : List (List LogEvent)),
      s.getLast? = some c →
      c.toLower ≠ 'm' → c.toLower ≠ 'h' → c.toLower ≠ 'd' →
      (∃ e, parse_time_range s = .error e)
      ∧ (get_logs now s pages).calls = 0) := by
  constructor
  · intro ds now pages hne hd
    have hm : parse_time_range (ds ++ ['m']) = .ok ((digitsVal ds : Int) * 60) := by
      rw [parse_time_range_append_unit ds 'm' hne hd, if_pos (by decide)]
    have hh : parse_time_range (ds ++ ['h']) = .ok ((digitsVal ds : Int) * 3600) := by
      rw [parse_time_range_append_unit ds 'h' hne hd, if_neg (by decide),
        if_pos (by decide)]
    have hdy : parse_time_range (ds ++ ['d']) = .ok ((digitsVal ds : Int) * 86400) := by
      rw [parse_time_range_append_unit ds 'd' hne hd, if_neg (by decide),
        if_neg (by decide), if_pos (by decide)]
    refine ⟨hm, hh, hdy, ?_, ?_, ?_, ?_⟩
    · simp [get_logs, hm]
    · simp [get_logs, hm]
    · simp [get_logs, hh]
    · simp [get_logs, hdy]
  · intro s c now pages hlast hm hh hdy
    have hperr : ∃ e, parse_time_range s = .error e := by
      unfold parse_time_range
      rw [hlast]
      cases hpi : pyParseInt s.dropLast with
      | none => exact ⟨.valueError, rfl⟩
      | some v =>
        refine ⟨.valueError, ?_⟩
        simp [if_neg hm, if_neg hh, if_neg hdy]
    obtain ⟨e, he⟩ := hperr
    exact ⟨⟨e, he⟩, by simp [get_logs, he]⟩

/-- Witness for the amended C5: `7m` parses to 7 minutes with the right
window, and `5x` is rejected with no network call made. -/
theorem time_range_parse_correct_witness :
    parse_time_range ['7', 'm'] = .ok ((digitsVal ['7'] : Int) * 60)
    ∧ (get_logs 0 ['7', 'm'] [[⟨0, []⟩]]).startMs
        = some (0 - (digitsVal ['7'] : Int) * 60 * 1000)
    ∧ (∃ e, parse_time_range ['5', 'x'] = .error e)
    ∧ (get_logs 0 ['5', 'x'] [[⟨0, []⟩]]).calls = 0 := by
  have hpos := time_range_parse_correct.1 ['7'] 0 [[⟨0, []⟩]] (by decide) (by decide)
  have hneg := time_range_parse_correct.2 ['5', 'x'] 'x' 0 [[⟨0, []⟩]]
    (by decide) (by decide) (by decide) (by decide)
  exact ⟨hpos.1, hpos.2.2.2.2.1, hneg.1, hneg.2⟩

/- ------------------------------------------------------------------ -/
/- Part 3: get_lambdas.py                                              -/
/- ------------------------------------------------------------------ -/

/-- Python `str.lower()` on an ASCII function name. -/
def lowerStr (s : List Char) : List Char := s.map Char.toLower

/-- Python `needle in haystack` on strings: contiguous substring test. -/
def pyIn (needle haystack : List Char) : Bool := decide (needle <:+: haystack)

/-- The per-item filter of `get_lambdas`: the item is skipped when a
truthy (non-None, nonempty) domain filter is not a lowercased substring
of the lowercased name, likewise for stage; otherwise it is appended. -/
def keepFunc (domain stage : Option (List Char)) (name : List Char) : Bool :=
  let skipDomain :=
    match domain with
    | none => false
    | some d => !d.isEmpty && !(pyIn (lowerStr d) (lowerStr name))
  let skipStage :=
    match stage with
    | none => false
    | some st => !st.isEmpty && !(pyIn (lowerStr st) (lowerStr name))
  !skipDomain && !skipStage

/-- The paginator loop of `get_lambdas`: filter every page, in order. -/
def collectFuncs (domain stage : Option (List Char)) :
    List (List (List Char)) → List (List Char)
  | [] => []
  | page :: rest =>
    page.filter (keepFunc domain stage) ++ collectFuncs domain stage rest

/-- The message printed for an empty result. -/
def noMatchesLine : List Char :=
  "No Lambda functions found matching the criteria.".data

/-- The count header printed for a nonempty result. -/
def foundLine (n : Nat) : List Char :=
  "Found ".data ++ (toString n).data ++ " Lambda function(s):".data

/-- One printed result line. -/
def bulletLine (f : List Char) : List Char := "  • ".data ++ f

/-- The report `get_lambdas` prints after fetching: the count header
followed by `sorted(functions)` one name per line, or the no-matches
message when nothing passed the filters. -/
def get_lambdas_output (domain stage : Option (List Char))
    (pages : List (List (List Char))) : List (List Char) :=
  let functions := collectFuncs domain stage pages
  if functions.isEmpty then [noMatchesLine]
  else
    foundLine functions.length
      :: (List.insertionSort (· ≤ ·) functions).map bulletLine

example :
    collectFuncs (some "report".data) none
      [["ReportMgmt-beta-api".data, "ActivityMgmt-prod-api".data]]
      = ["ReportMgmt-beta-api".data] := by decide

lemma mem_collectFuncs (domain stage : Option (List Char)) :
    ∀ (pages : List (List (List Char))) (name : List Char),
      name ∈ collectFuncs domain stage pages
        ↔ name ∈ pages.flatten ∧ keepFunc domain stage name = true := by
  intro pages
  induction pages with
  | nil => intro name; simp [collectFuncs]
  | cons p rest ih =>
    intro name
    simp only [collectFuncs, List.mem_append, List.mem_filter, ih name,
      List.flatten_cons]
    tauto

lemma skipFilter_eq_false_iff (o : Option (List Char)) (name : List Char) :
    (match o with
      | none => false
      | some d => !d.isEmpty && !(pyIn (lowerStr d) (lowerStr name))) = false
      ↔ ∀ f, o = some f → pyIn (lowerStr f) (lowerStr name) = true := by
  cases o with
  | none => simp
  | some d =>
    cases he : d.isEmpty with
    | true =>
      have hd0 : d = [] := by
        cases d with
        | nil => rfl
        | cons a l => simp at he
      subst hd0
      simp [pyIn]
      simp [lowerStr, List.nil_infix]
    | false =>
      cases hp : pyIn (lowerStr d) (lowerStr name) with
      | true =>
        simp only [he, hp]
        constructor
        · intro _ f hf
          injection hf with hf
          subst hf
          exact hp
        · intro _; rfl
      | false =>
        simp only [he, hp]
        constructor
        · intro h; exact absurd h (by simp)
        · intro h
          exact absurd (h d rfl) (by simp [hp])

lemma keepFunc_iff (domain stage : Option (List Char)) (name : List Char) :
    keepFunc domain stage name = true
      ↔ ∀ f, (domain = some f ∨ stage = some f) →
          pyIn (lowerStr f) (lowerStr name) = true := by
  unfold keepFunc
  simp only [Bool.and_eq_true, Bool.not_eq_true']
  rw [skipFilter_eq_false_iff domain name, skipFilter_eq_false_iff stage name]
  constructor
  · rintro ⟨h1, h2⟩ f (hf | hf)
    · exact h1 f hf
    · exact h2 f hf
  · intro h
    exact ⟨fun f hf => h f (.inl hf), fun f hf => h f (.inr hf)⟩

/-- Claim C6: the domain and stage filters are conjunctive,
case-insensitive substring matches against the function name: a name is
retained iff every supplied filter is a case-insensitive substring of it.
On functions ReportMgmt-beta-api and ActivityMgmt-prod-api, domain
`report` yields exactly ReportMgmt-beta-api, and adding stage `prod`
yields the empty sequence. -/
theorem filters_conjunctive_case_insensitive (domain stage : Option (List Char))
    (pages : List (List (List Char))) (name : List Char) :
    (name ∈ collectFuncs domain stage pages
      ↔ name ∈ pages.flatten
        ∧ ∀ f, (domain = some f ∨ stage = some f) →
            pyIn (lowerStr f) (lowerStr name) = true)
    ∧ collectFuncs (some "report".data) none
        [["ReportMgmt-beta-api".data, "ActivityMgmt-prod-api".data]]
        = ["ReportMgmt-beta-api".data]
    ∧ collectFuncs (some "report".data) (some "prod".data)
        [["ReportMgmt-beta-api".data, "ActivityMgmt-prod-api".data]] = [] := by
  refine ⟨?_, by decide, by decide⟩
  rw [mem_collectFuncs, keepFunc_iff]

/-- Witness for C6: ReportMgmt-beta-api passes the domain filter `report`
via the retained-iff characterization. -/
theorem filters_conjunctive_case_insensitive_witness :
    "ReportMgmt-beta-api".data
      ∈ collectFuncs (some "report".data) none
        [["ReportMgmt-beta-api".data, "ActivityMgmt-prod-api".data]] := by
  have h := (filters_conjunctive_case_insensitive (some "report".data) none
    [["ReportMgmt-beta-api".data, "ActivityMgmt-prod-api".data]]
    "ReportMgmt-beta-api".data).1
  refine h.mpr ⟨by decide, ?_⟩
  intro f hf
  rcases hf with hf | hf
  · injection hf with hf
    subst hf
    decide
  · exact Option.noConfusion hf

/-- Claim C9: the printed result is the lexicographically sorted sequence
of the matching names, one bullet line each under the count header, and
an empty result prints the explicit no-matches message. -/
theorem lister_prints_sorted (domain stage : Option (List Char))
    (pages : List (List (List Char))) :
    (collectFuncs domain stage pages = [] →
      get_lambdas_output domain stage pages = [noMatchesLine])
    ∧ (collectFuncs domain stage pages ≠ [] →
      ∃ sortedNames : List (List Char),
        sortedNames.Perm (collectFuncs domain stage pages)
        ∧ List.Sorted (· ≤ ·) sortedNames
        ∧ get_lambdas_output domain stage pages
            = foundLine (collectFuncs domain stage pages).length
                :: sortedNames.map bulletLine) := by
  constructor
  · intro h
    simp [get_lambdas_output, h]
  · intro h
    refine ⟨List.insertionSort (· ≤ ·) (collectFuncs domain stage pages),
      List.perm_insertionSort _ _, List.sorted_insertionSort _ _, ?_⟩
    simp [get_lambdas_output, h]

/-- Witness for C9: with domain `report` and stage `prod` the example
table has no match and the no-matches message is printed. -/
theorem lister_prints_sorted_witness :
    get_lambdas_output (some "report".data) (some "prod".data)
      [["ReportMgmt-beta-api".data, "ActivityMgmt-prod-api".data]]
      = [noMatchesLine] :=
  (lister_prints_sorted (some "report".data) (some "prod".data)
    [["ReportMgmt-beta-api".data, "ActivityMgmt-prod-api".data]]).1 (by decide)

/- ------------------------------------------------------------------ -/
/- Part 4: detect_aws_resources.py                                     -/
/- ------------------------------------------------------------------ -/

/-- A remote-call failure surfaced by the client library as a ClientError
(authorization, throttling, service fault); carried as its message. -/
def ClientFault : Type := List Char

/-- Raw item of a `list_functions` response, with the fields the detector
reads (`Runtime` is optional: the detector substitutes a default). -/
structure LambdaRaw where
  functionName : List Char
  runtime : Option (List Char)
  functionArn : List Char
  lastModified : List Char
deriving DecidableEq

/-- Record built for one Lambda function. -/
structure FuncRec where
  name : List Char
  runtime : List Char
  arn : List Char
  last_modified : List Char
deriving DecidableEq

/-- Raw item of a `list_buckets` response (`CreationDate.isoformat()` is
modelled as the rendered string). -/
structure BucketRaw where
  bucketName : List Char
  creationDate : List Char
deriving DecidableEq

/-- Record built for one S3 bucket. -/
structure BucketRec where
  name : List Char
  creation_date : List Char
deriving DecidableEq

/-- Raw `describe_table` payload, with the fields the detector reads
(all looked up with defaults). -/
structure TableRaw where
  tableStatus : Option (List Char)
  itemCount : Option Int
  tableSizeBytes : Option Int
deriving DecidableEq

/-- Record built for one DynamoDB table.  When the per-table
`describe_table` call fails, the detector keeps only the name and the
literal status `Unknown`; the numeric fields are then absent (`none`). -/
structure TableRec where
  name : List Char
  status : List Char
  item_count : Option Int
  size_bytes : Option Int
deriving DecidableEq

/-- Raw item of a `list_stacks` summary. -/
structure StackRaw where
  stackName : List Char
  stackStatus : List Char
  creationTime : List Char
deriving DecidableEq

/-- Record built for one CloudFormation stack. -/
structure StackRec where
  name : List Char
  status : List Char
  creation_time : List Char
deriving DecidableEq

/-- Raw item of a `get_rest_apis` response (`createdDate` optional). -/
structure ApiRaw where
  apiName : List Char
  apiId : List Char
  createdDate : Option (List Char)
deriving DecidableEq

/-- Record built for one API Gateway REST API. -/
structure ApiRec where
  name : List Char
  id : List Char
  created_date : List Char
deriving DecidableEq

/-- The remote responses one detector run observes: one response (or
ClientError) per listing endpoint, plus the per-table `describe_table`
outcome. -/
structure DetectEnv where
  lambdaResp : Except ClientFault (List LambdaRaw)
  s3Resp : Except ClientFault (List BucketRaw)
  ddbListResp : Except ClientFault (List (List Char))
  ddbDescribe : List Char → Except ClientFault TableRaw
  cfnResp : Except ClientFault (List StackRaw)
  apigwResp : Except ClientFault (List ApiRaw)

/-- `detect_lambda_functions`: list, build records; on ClientError log and
return the empty list. -/
def detect_lambda_functions (env : DetectEnv) : List FuncRec :=
  match env.lambdaResp with
  | .error _ => []
  | .ok fs => fs.map (fun f =>
      ⟨f.functionName, f.runtime.getD "N/A".data, f.functionArn, f.lastModified⟩)

/-- `detect_s3_buckets`: list, build records; on ClientError return []. -/
def detect_s3_buckets (env : DetectEnv) : List BucketRec :=
  match env.s3Resp with
  | .error _ => []
  | .ok bs => bs.map (fun b => ⟨b.bucketName, b.creationDate⟩)

/-- `detect_dynamodb_tables`: list the names, describe each (with a
fallback record when the describe call fails); on ClientError of the
listing call return []. -/
def detect_dynamodb_tables (env : DetectEnv) : List TableRec :=
  match env.ddbListResp with
  | .error _ => []
  | .ok names => names.map (fun n =>
      match env.ddbDescribe n with
      | .ok t =>
        ⟨n, t.tableStatus.getD "N/A".data,
          some (t.itemCount.getD 0), some (t.tableSizeBytes.getD 0)⟩
      | .error _ => ⟨n, "Unknown".data, none, none⟩)

/-- `detect_cloudformation_stacks`: list (server-side status filter is
part of the response), build records; on ClientError return []. -/
def detect_cloudformation_stacks (env : DetectEnv) : List StackRec :=
  match env.cfnResp with
  | .error _ => []
  | .ok ss => ss.map (fun s => ⟨s.stackName, s.stackStatus, s.creationTime⟩)

/-- `detect_api_gateways`: list, build records; on ClientError return []. -/
def detect_api_gateways (env : DetectEnv) : List ApiRec :=
  match env.apigwResp with
  | .error _ => []
  | .ok as2 => as2.map (fun a => ⟨a.apiName, a.apiId, a.createdDate.getD "N/A".data⟩)

/-- The aggregate returned by `detect_all_resources`, keyed by resource
kind. -/
structure AllResources where
  lambda_functions : List FuncRec
  s3_buckets : List BucketRec
  dynamodb_tables : List TableRec
  cloudformation_stacks : List StackRec
  api_gateways : List ApiRec
deriving DecidableEq

/-- `detect_all_resources`: run every enumerator and aggregate. -/
def detect_all_resources (env : DetectEnv) : AllResources :=
  ⟨detect_lambda_functions env, detect_s3_buckets env, detect_dynamodb_tables env,
   detect_cloudformation_stacks env, detect_api_gateways env⟩

/-- Claim C8: a remote-call failure makes the affected enumerator return
the empty sequence instead of raising, and `detect_all_resources` is
componentwise: failing one resource kind empties exactly that kind's
entry and leaves every other kind's results unchanged. -/
theorem enumerator_failure_isolated (env : DetectEnv) (e : ClientFault) :
    (detect_lambda_functions { env with lambdaResp := .error e } = []
      ∧ detect_all_resources { env with lambdaResp := .error e }
          = { detect_all_resources env with lambda_functions := [] })
    ∧ (detect_s3_buckets { env with s3Resp := .error e } = []
      ∧ detect_all_resources { env with s3Resp := .error e }
          = { detect_all_resources env with s3_buckets := [] })
    ∧ (detect_dynamodb_tables { env with ddbListResp := .error e } = []
      ∧ detect_all_resources { env with ddbListResp := .error e }
          = { detect_all_resources env with dynamodb_tables := [] })
    ∧ (detect_cloudformation_stacks { env with cfnResp := .error e } = []
      ∧ detect_all_resources { env with cfnResp := .error e }
          = { detect_all_resources env with cloudformation_stacks := [] })
    ∧ (detect_api_gateways { env with apigwResp := .error e } = []
      ∧ detect_all_resources { env with apigwResp := .error e }
          = { detect_all_resources env with api_gateways := [] }) :=
  ⟨⟨rfl, rfl⟩, ⟨rfl, rfl⟩, ⟨rfl, rfl⟩, ⟨rfl, rfl⟩, ⟨rfl, rfl⟩⟩
